import Mathlib

/-!
# EventRoom association service — verification development

A shallow embedding of the `EventRoom` CRUD use case (`EventRoomUseCase`)
from the repository's backend sources, together with proofs of the spec's
properties about it.

The use case itself (`CreateEventRoomAsync`, `GetFilteredEventRoomsAsync`,
`GetEventRoomAsync`, `DeleteEventRoomAsync`) is translated directly from
`EventRoomUseCase.cs`.  The generic persistence operations it calls
(`FindOneAsync`, `GetCount`, `GetAllAsync`, `AddAsync`, `DeleteAsync` of the
base `Repository<T>`, and `SaveChangesAsync` of the unit of work) are not
part of the sources; they are modelled from the spec's Persistence Gateway
contract (§4.2).  The database is made explicit as a `DbState` value that is
threaded through the calls; a thrown exception becomes an `Except.error`
result paired with the unchanged state.
-/

namespace HiLink

/-- Opaque unique identifier (`Guid` in the source).  Modelled as a natural
number; `Nat`'s total order stands in for the total order on `Guid` used by
the `orderBy er.Id` clauses. -/
abbrev Guid := Nat

/-- The `Event` entity, projected to the field the use case reads (its
identifier `Id`).  The entity's remaining payload (name, …) is irrelevant to
every operation modelled here. -/
structure Event where
  id : Guid
deriving Repr, DecidableEq

/-- The `Room` entity, projected to its identifier. -/
structure Room where
  id : Guid
deriving Repr, DecidableEq

/-- The `EventRoom` junction entity.  `id` is the inherited surrogate
`BaseEntity.Id`; `eventId`/`roomId` form the composite key; `event`/`room`
are the navigation properties, populated only by queries that eagerly
`Include` them (they are `null` ≈ `none` as stored). -/
structure EventRoom where
  id : Guid
  eventId : Guid
  roomId : Guid
  event : Option Event := none
  room : Option Room := none
deriving Repr, DecidableEq

/-- Input DTO `CreateEventRoomDTO` of the create operation. -/
structure CreateEventRoomDTO where
  eventId : Guid
  roomId : Guid
deriving Repr, DecidableEq

/-- Transfer shape `EventRoomDTO` returned by read operations; the
AutoMapper profile copies the entity's fields, nested navigations included. -/
structure EventRoomDTO where
  id : Guid
  eventId : Guid
  roomId : Guid
  event : Option Event := none
  room : Option Room := none
deriving Repr, DecidableEq

/-- Filter DTO `EventRoomFilterDTO`: filter and pagination parameters of the list
operation.  `pageNumber` and `pageSize` are C# `int`s, hence `Int` (the use
case never validates them). -/
structure EventRoomFilterDTO where
  eventId : Option Guid := none
  roomId : Option Guid := none
  pageNumber : Int := 1
  pageSize : Int := 10
deriving Repr, DecidableEq

/-- Paged-result shape `PaginatedResultDTO<T>`. -/
structure PaginatedResultDTO (α : Type) where
  items : List α
  pageIndex : Int
  pageSize : Int
  totalCount : Int
  totalPages : Int
  hasPreviousPage : Bool
  hasNextPage : Bool
deriving Repr, DecidableEq

/-- The service's error taxonomy: `NotFoundException` / `ConflictException`,
each carrying the message string passed to its constructor. -/
inductive AppError where
  | notFound (message : String)
  | conflict (message : String)
deriving Repr, DecidableEq

/-- The persistent state behind the gateway: the three entity collections
and the next surrogate identifier the store will generate. -/
structure DbState where
  events : List Event
  rooms : List Room
  eventRooms : List EventRoom
  nextId : Guid
deriving Repr, DecidableEq

/-- Modelled from the spec: the generic repository `FindOneAsync` (base
`Repository<T>`, not among the sources) — §4.2 `findOne(predicate) →
record?`, "first match or absent".  Being generic in the record type, it
resolves no related projections. -/
def FindOneAsync {α : Type} (p : α → Bool) (records : List α) : Option α :=
  records.find? p

/-- Modelled from the spec: the generic repository `GetCount` — §4.2
`count(predicate) → integer`. -/
def GetCount {α : Type} (p : α → Bool) (records : List α) : Nat :=
  (records.filter p).length

/-- The effect of `q.Include(er => er.Event).Include(er => er.Room)`:
resolve the two navigation properties of a record against the current
collections. -/
def withIncludes (s : DbState) (er : EventRoom) : EventRoom :=
  { er with
    event := s.events.find? (fun e => e.id == er.eventId)
    room := s.rooms.find? (fun r => r.id == er.roomId) }

/-- Modelled from the spec: the generic repository `GetAllAsync` as invoked
by the use case — §4.2 `findPage(predicate, page, pageSize, orderBy,
includeRelated)` with §4.1's pagination: records matching the predicate, in
ascending order of the surrogate id, at offset `(page-1)*pageSize`, limited
to `pageSize`, with the related entities resolved.  A negative skip/take
count skips/takes nothing (LINQ `Skip`/`Take` semantics), hence `Int.toNat`. -/
def GetAllAsync (p : EventRoom → Bool) (page count : Int) (s : DbState) :
    List EventRoom :=
  ((((s.eventRooms.filter p).insertionSort
      (fun a b => a.id ≤ b.id)).map (withIncludes s)).drop
      ((page - 1) * count).toNat).take count.toNat

/-- Modelled from the spec: `AddAsync` followed by the unit of work's
`SaveChangesAsync` — §4.2 `add(record)`.  The store appends the record and
generates its surrogate identifier. -/
def AddAsync (er : EventRoom) (s : DbState) : DbState :=
  { s with
    eventRooms := s.eventRooms ++ [{ er with id := s.nextId }]
    nextId := s.nextId + 1 }

/-- Modelled from the spec: the generic `DeleteAsync(predicate)` followed by
`SaveChangesAsync` — §4.2 `deleteByKeys`: removes every record matching the
predicate. -/
def DeleteAsync (p : EventRoom → Bool) (s : DbState) : DbState :=
  { s with eventRooms := s.eventRooms.filter (fun er => !(p er)) }

/-- Mapping `_mapper.Map<EventRoomDTO>` on a non-null entity: the AutoMapper profile
`CreateMap<EventRoom, EventRoomDTO>` copies every field, the `Event`/`Room`
navigations included (as they are on the record — resolved or not). -/
def mapEventRoomDTO (er : EventRoom) : EventRoomDTO :=
  { id := er.id, eventId := er.eventId, roomId := er.roomId,
    event := er.event, room := er.room }

/-- Mapping `_mapper.Map<EventRoomDTO>` on a nullable entity: AutoMapper maps a null
source object to a null destination; the use case performs no null check on
the mapped value. -/
def mapNullableEventRoomDTO (er : Option EventRoom) : Option EventRoomDTO :=
  er.map mapEventRoomDTO

/-- Use case `EventRoomUseCase.CreateEventRoomAsync`: validate that the event exists
(`NotFoundException("Event")`), that the room exists
(`NotFoundException("Room")`), that no association with the same composite
key exists (`ConflictException`), then construct the entity (its surrogate
id left at the `Guid` default, modelled 0), persist it, re-read it by the
composite key, and return the mapped (nullable) re-read.  The second
component is the state after the call; a thrown exception is an
`Except.error` paired with the unchanged state. -/
def CreateEventRoomAsync (dto : CreateEventRoomDTO) (s : DbState) :
    Except AppError (Option EventRoomDTO) × DbState :=
  match FindOneAsync (fun e => e.id == dto.eventId) s.events with
  | none => (.error (.notFound "Event"), s)
  | some _ =>
    match FindOneAsync (fun r => r.id == dto.roomId) s.rooms with
    | none => (.error (.notFound "Room"), s)
    | some _ =>
      match FindOneAsync
          (fun er => er.eventId == dto.eventId && er.roomId == dto.roomId)
          s.eventRooms with
      | some _ =>
        (.error (.conflict "EventRoom with same Event and Room already exists."), s)
      | none =>
        let eventRoom : EventRoom :=
          { id := 0, eventId := dto.eventId, roomId := dto.roomId }
        let s2 := AddAsync eventRoom s
        let created := FindOneAsync
          (fun er => er.eventId == dto.eventId && er.roomId == dto.roomId)
          s2.eventRooms
        (.ok (mapNullableEventRoomDTO created), s2)

/-- The predicate built in `GetFilteredEventRoomsAsync`:
`(filterDto.EventId == null || er.EventId == filterDto.EventId) &&
(filterDto.RoomId == null || er.RoomId == filterDto.RoomId)` (the `==`
against a nullable lifts the left side). -/
def matchesFilter (f : EventRoomFilterDTO) (er : EventRoom) : Bool :=
  (f.eventId == none || some er.eventId == f.eventId) &&
  (f.roomId == none || some er.roomId == f.roomId)

/-- Models `(int)Math.Ceiling(totalCount / (double)filterDto.PageSize)`.
For a positive page size the double arithmetic is exact on the ranges in
play and the expression is the integer ceiling of `totalCount / pageSize`,
i.e. `(totalCount + pageSize - 1) / pageSize` in natural-number division.
For a negative page size the quotient is nonpositive, and `Math.Ceiling`
followed by the `int` cast truncates toward zero (`Int.div`).  For page
size 0 the source divides by zero in floating point with no guard and casts
the resulting non-finite value — a platform-defined junk integer that this
model collapses to 0. -/
def ceilingTotalPages (totalCount : Nat) (pageSize : Int) : Int :=
  if 0 < pageSize then
    ((totalCount + pageSize.toNat - 1) / pageSize.toNat : Nat)
  else if pageSize = 0 then 0
  else Int.tdiv (totalCount : Int) pageSize

/-- Use case `EventRoomUseCase.GetFilteredEventRoomsAsync`: count the records
matching the optional filters, fetch the requested page (ordered by the
surrogate id, related entities included), map to DTOs, and assemble the
pagination metadata.  No parameter is validated.  A pure read: the state is
not changed. -/
def GetFilteredEventRoomsAsync (f : EventRoomFilterDTO) (s : DbState) :
    PaginatedResultDTO EventRoomDTO :=
  let predicate := matchesFilter f
  let totalCount := GetCount predicate s.eventRooms
  let eventRooms := GetAllAsync predicate f.pageNumber f.pageSize s
  let items := eventRooms.map mapEventRoomDTO
  let totalPages := ceilingTotalPages totalCount f.pageSize
  { items := items
    pageIndex := f.pageNumber
    pageSize := f.pageSize
    totalCount := (totalCount : Int)
    totalPages := totalPages
    hasPreviousPage := decide (f.pageNumber > 1)
    hasNextPage := decide (f.pageNumber < totalPages) }

/-- Use case `EventRoomUseCase.GetEventRoomAsync`: look up by the composite key via
the generic `FindOneAsync` (no eager includes), throw
`NotFoundException("EventRoom")` when absent, else return the mapped
record.  A pure read. -/
def GetEventRoomAsync (eventId roomId : Guid) (s : DbState) :
    Except AppError EventRoomDTO :=
  match FindOneAsync
      (fun er => er.eventId == eventId && er.roomId == roomId)
      s.eventRooms with
  | none => .error (.notFound "EventRoom")
  | some er => .ok (mapEventRoomDTO er)

/-- Use case `EventRoomUseCase.DeleteEventRoomAsync`: look up by the composite key;
when absent throw `NotFoundException($"EventRoom with EventId={eventId} and
RoomId={roomId} not found")`; otherwise delete by the same predicate and
save. -/
def DeleteEventRoomAsync (eventId roomId : Guid) (s : DbState) :
    Except AppError Unit × DbState :=
  match FindOneAsync
      (fun er => er.eventId == eventId && er.roomId == roomId)
      s.eventRooms with
  | none =>
    (.error (.notFound ("EventRoom with EventId=" ++ toString eventId ++
      " and RoomId=" ++ toString roomId ++ " not found")), s)
  | some _ =>
    (.ok (), DeleteAsync
      (fun er => er.eventId == eventId && er.roomId == roomId) s)

/-- Repository method `EventRoomRepository.GetByIdsAsync` (infrastructure layer): composite-key
lookup with eager `Include` of `Event` and `Room`.  Defined for comparison —
the use case's `GetEventRoomAsync` never calls it. -/
def GetByIdsAsync (eventId roomId : Guid) (s : DbState) : Option EventRoom :=
  (s.eventRooms.map (withIncludes s)).find?
    (fun er => er.eventId == eventId && er.roomId == roomId)

/-- An event with the given id exists. -/
def EventExists (eventId : Guid) (s : DbState) : Prop :=
  ∃ e ∈ s.events, e.id = eventId

/-- A room with the given id exists. -/
def RoomExists (roomId : Guid) (s : DbState) : Prop :=
  ∃ r ∈ s.rooms, r.id = roomId

/-- An association record with the given composite key exists. -/
def AssocExists (eventId roomId : Guid) (s : DbState) : Prop :=
  ∃ er ∈ s.eventRooms, er.eventId = eventId ∧ er.roomId = roomId

/-- One service call, as a transition on the database state (the reads
`GetEventRoomAsync` / `GetFilteredEventRoomsAsync` do not touch it). -/
inductive Step : DbState → DbState → Prop where
  | create (dto : CreateEventRoomDTO) (s : DbState) :
      Step s (CreateEventRoomAsync dto s).2
  | delete (eventId roomId : Guid) (s : DbState) :
      Step s (DeleteEventRoomAsync eventId roomId s).2
  | get (eventId roomId : Guid) (s : DbState) : Step s s
  | listFiltered (f : EventRoomFilterDTO) (s : DbState) : Step s s

/-- State `s` is reachable from `init` by a sequence of service calls. -/
def Reachable (init s : DbState) : Prop :=
  Relation.ReflTransGen Step init s

/-- At most one association record per (eventId, roomId) pair. -/
def PairUnique (l : List EventRoom) : Prop :=
  l.Pairwise (fun a b => ¬(a.eventId = b.eventId ∧ a.roomId = b.roomId))

/-- Every association record references an existing event and an existing
room. -/
def RefIntegrity (s : DbState) : Prop :=
  ∀ er ∈ s.eventRooms, EventExists er.eventId s ∧ RoomExists er.roomId s

/-- Example database: one event (id 1), one room (id 2), no associations. -/
def exDb0 : DbState :=
  { events := [{ id := 1 }], rooms := [{ id := 2 }], eventRooms := [], nextId := 10 }

/-- The example database after `create(1, 2)`. -/
def exDb1 : DbState := (CreateEventRoomAsync { eventId := 1, roomId := 2 } exDb0).2

/-- Example database with three associations of event 1 (surrogate ids
10, 11, 12), for exercising the pagination metadata. -/
def exDb3 : DbState :=
  { events := [{ id := 1 }]
    rooms := [{ id := 2 }, { id := 3 }, { id := 4 }]
    eventRooms :=
      [{ id := 10, eventId := 1, roomId := 2 },
       { id := 11, eventId := 1, roomId := 3 },
       { id := 12, eventId := 1, roomId := 4 }]
    nextId := 13 }

section Lemmas

lemma findOne_event_eq_none_iff (eventId : Guid) (s : DbState) :
    FindOneAsync (fun e => e.id == eventId) s.events = none ↔
      ¬ EventExists eventId s := by
  simp [FindOneAsync, List.find?_eq_none, EventExists]

lemma findOne_room_eq_none_iff (roomId : Guid) (s : DbState) :
    FindOneAsync (fun r => r.id == roomId) s.rooms = none ↔
      ¬ RoomExists roomId s := by
  simp [FindOneAsync, List.find?_eq_none, RoomExists]

lemma findOne_assoc_eq_none_iff (eventId roomId : Guid) (s : DbState) :
    FindOneAsync (fun er => er.eventId == eventId && er.roomId == roomId)
        s.eventRooms = none ↔
      ¬ AssocExists eventId roomId s := by
  simp [FindOneAsync, List.find?_eq_none, AssocExists, not_and]

lemma findOne_assoc_isSome_iff (eventId roomId : Guid) (s : DbState) :
    (FindOneAsync (fun er => er.eventId == eventId && er.roomId == roomId)
        s.eventRooms).isSome ↔
      AssocExists eventId roomId s := by
  simp [FindOneAsync, List.find?_isSome, AssocExists]

/-- Case analysis of `CreateEventRoomAsync` along the four branches of the
source: each validation failure leaves the result state untouched, and the
success branch appends exactly one record after all three checks passed. -/
lemma create_cases (dto : CreateEventRoomDTO) (s : DbState) :
    ((∃ e : AppError, (CreateEventRoomAsync dto s).1 = .error e) ∧
      (CreateEventRoomAsync dto s).2 = s) ∨
    (EventExists dto.eventId s ∧ RoomExists dto.roomId s ∧
      ¬ AssocExists dto.eventId dto.roomId s ∧
      (CreateEventRoomAsync dto s).2 =
        AddAsync { id := 0, eventId := dto.eventId, roomId := dto.roomId } s) := by
  cases h1 : FindOneAsync (fun e => e.id == dto.eventId) s.events with
  | none => exact .inl (by simp [CreateEventRoomAsync, h1])
  | some ev =>
    cases h2 : FindOneAsync (fun r => r.id == dto.roomId) s.rooms with
    | none => exact .inl (by simp [CreateEventRoomAsync, h1, h2])
    | some rm =>
      cases h3 : FindOneAsync
          (fun er => er.eventId == dto.eventId && er.roomId == dto.roomId)
          s.eventRooms with
      | some er => exact .inl (by simp [CreateEventRoomAsync, h1, h2, h3])
      | none =>
        refine .inr ⟨?_, ?_, ?_, ?_⟩
        · have hmem := List.mem_of_find?_eq_some h1
          have hp := List.find?_some h1
          exact ⟨ev, hmem, by simpa using hp⟩
        · have hmem := List.mem_of_find?_eq_some h2
          have hp := List.find?_some h2
          exact ⟨rm, hmem, by simpa using hp⟩
        · exact (findOne_assoc_eq_none_iff _ _ _).mp h3
        · simp [CreateEventRoomAsync, h1, h2, h3]

/-- On any failure, `CreateEventRoomAsync` leaves the state untouched. -/
lemma create_error_snd (dto : CreateEventRoomDTO) (s : DbState) (e : AppError)
    (h : (CreateEventRoomAsync dto s).1 = .error e) :
    (CreateEventRoomAsync dto s).2 = s := by
  cases h1 : FindOneAsync (fun e => e.id == dto.eventId) s.events with
  | none => simp [CreateEventRoomAsync, h1]
  | some ev =>
    cases h2 : FindOneAsync (fun r => r.id == dto.roomId) s.rooms with
    | none => simp [CreateEventRoomAsync, h1, h2]
    | some rm =>
      cases h3 : FindOneAsync
          (fun er => er.eventId == dto.eventId && er.roomId == dto.roomId)
          s.eventRooms with
      | some er => simp [CreateEventRoomAsync, h1, h2, h3]
      | none => simp [CreateEventRoomAsync, h1, h2, h3] at h

/-- The state after `DeleteEventRoomAsync` is either untouched (failure) or
the result of `DeleteAsync` with the composite-key predicate. -/
lemma delete_snd_cases (eventId roomId : Guid) (s : DbState) :
    (DeleteEventRoomAsync eventId roomId s).2 = s ∨
    (DeleteEventRoomAsync eventId roomId s).2 =
      DeleteAsync (fun er => er.eventId == eventId && er.roomId == roomId) s := by
  cases h : FindOneAsync
      (fun er => er.eventId == eventId && er.roomId == roomId) s.eventRooms with
  | none => exact .inl (by simp [DeleteEventRoomAsync, h])
  | some er => exact .inr (by simp [DeleteEventRoomAsync, h])

@[simp] lemma addAsync_events (er : EventRoom) (s : DbState) :
    (AddAsync er s).events = s.events := rfl

@[simp] lemma addAsync_rooms (er : EventRoom) (s : DbState) :
    (AddAsync er s).rooms = s.rooms := rfl

@[simp] lemma addAsync_eventRooms (er : EventRoom) (s : DbState) :
    (AddAsync er s).eventRooms = s.eventRooms ++ [{ er with id := s.nextId }] := rfl

@[simp] lemma deleteAsync_events (p : EventRoom → Bool) (s : DbState) :
    (DeleteAsync p s).events = s.events := rfl

@[simp] lemma deleteAsync_rooms (p : EventRoom → Bool) (s : DbState) :
    (DeleteAsync p s).rooms = s.rooms := rfl

@[simp] lemma deleteAsync_eventRooms (p : EventRoom → Bool) (s : DbState) :
    (DeleteAsync p s).eventRooms = s.eventRooms.filter (fun er => !(p er)) := rfl

lemma pairUnique_append_singleton {l : List EventRoom} {er : EventRoom}
    (hu : PairUnique l)
    (h : ∀ x ∈ l, ¬(x.eventId = er.eventId ∧ x.roomId = er.roomId)) :
    PairUnique (l ++ [er]) := by
  unfold PairUnique at hu ⊢
  rw [List.pairwise_append]
  refine ⟨hu, List.pairwise_singleton _ _, ?_⟩
  intro a ha b hb
  simp only [List.mem_singleton] at hb
  subst hb
  exact h a ha

lemma step_pairUnique {s s' : DbState} (hs : Step s s')
    (hu : PairUnique s.eventRooms) : PairUnique s'.eventRooms := by
  cases hs with
  | create dto s =>
    rcases create_cases dto s with ⟨_, h⟩ | ⟨_, _, hna, h⟩
    · rw [h]; exact hu
    · rw [h, addAsync_eventRooms]
      refine pairUnique_append_singleton hu ?_
      intro x hx hkeys
      exact hna ⟨x, hx, hkeys⟩
  | delete eventId roomId s =>
    rcases delete_snd_cases eventId roomId s with h | h
    · rw [h]; exact hu
    · rw [h, deleteAsync_eventRooms]
      exact hu.sublist (List.filter_sublist _)
  | get eventId roomId s => exact hu
  | listFiltered f s => exact hu

/-- Events and rooms collections are never touched by a service call. -/
lemma step_entities_eq {s s' : DbState} (hs : Step s s') :
    s'.events = s.events ∧ s'.rooms = s.rooms := by
  cases hs with
  | create dto s =>
    rcases create_cases dto s with ⟨_, h⟩ | ⟨_, _, _, h⟩ <;> rw [h] <;> simp
  | delete eventId roomId s =>
    rcases delete_snd_cases eventId roomId s with h | h <;> rw [h] <;> simp
  | get eventId roomId s => exact ⟨rfl, rfl⟩
  | listFiltered f s => exact ⟨rfl, rfl⟩

lemma step_refIntegrity {s s' : DbState} (hs : Step s s')
    (hri : RefIntegrity s) : RefIntegrity s' := by
  obtain ⟨hev, hrm⟩ := step_entities_eq hs
  cases hs with
  | create dto s =>
    rcases create_cases dto s with ⟨_, h⟩ | ⟨hE, hR, _, h⟩
    · rw [h]; exact hri
    · intro er hmem
      rw [h, addAsync_eventRooms, List.mem_append] at hmem
      unfold EventExists RoomExists
      rw [hev, hrm] at *
      rcases hmem with hmem | hmem
      · exact hri er hmem
      · simp only [List.mem_singleton] at hmem
        subst hmem
        exact ⟨hE, hR⟩
  | delete eventId roomId s =>
    rcases delete_snd_cases eventId roomId s with h | h
    · rw [h]; exact hri
    · intro er hmem
      rw [h, deleteAsync_eventRooms] at hmem
      have hmem' := List.mem_of_mem_filter hmem
      unfold EventExists RoomExists
      rw [hev, hrm] at *
      exact hri er hmem'
  | get eventId roomId s => exact hri
  | listFiltered f s => exact hri

lemma reachable_pairUnique {init s : DbState} (h0 : init.eventRooms = [])
    (hr : Reachable init s) : PairUnique s.eventRooms := by
  induction hr with
  | refl => rw [PairUnique, h0]; exact List.Pairwise.nil
  | tail _ hstep ih => exact step_pairUnique hstep ih

lemma reachable_refIntegrity {init s : DbState} (h0 : init.eventRooms = [])
    (hr : Reachable init s) : RefIntegrity s := by
  induction hr with
  | refl => intro er hmem; rw [h0] at hmem; cases hmem
  | tail _ hstep ih => exact step_refIntegrity hstep ih

instance (eventId : Guid) (s : DbState) : Decidable (EventExists eventId s) :=
  inferInstanceAs (Decidable (∃ e ∈ s.events, e.id = eventId))

instance (roomId : Guid) (s : DbState) : Decidable (RoomExists roomId s) :=
  inferInstanceAs (Decidable (∃ r ∈ s.rooms, r.id = roomId))

instance (eventId roomId : Guid) (s : DbState) :
    Decidable (AssocExists eventId roomId s) :=
  inferInstanceAs
    (Decidable (∃ er ∈ s.eventRooms, er.eventId = eventId ∧ er.roomId = roomId))

lemma findOne_event_isSome_iff (eventId : Guid) (s : DbState) :
    (FindOneAsync (fun e => e.id == eventId) s.events).isSome ↔
      EventExists eventId s := by
  simp [FindOneAsync, List.find?_isSome, EventExists]

lemma findOne_room_isSome_iff (roomId : Guid) (s : DbState) :
    (FindOneAsync (fun r => r.id == roomId) s.rooms).isSome ↔
      RoomExists roomId s := by
  simp [FindOneAsync, List.find?_isSome, RoomExists]

end Lemmas

/-- **C1.**  For every input pair, `create` performs its checks in this
exact order and short-circuits at the first failure: no event with the id →
`NotFound("Event")` (whatever the rest of the state); else no room with the
id → `NotFound("Room")`; else an association with the same pair exists →
`Conflict`; else it persists a new association record, re-reads it by the
composite key and returns the re-read record (carrying the store-generated
surrogate id). -/
theorem C1_create_check_order (dto : CreateEventRoomDTO) (s : DbState) :
    (¬ EventExists dto.eventId s →
      CreateEventRoomAsync dto s = (.error (.notFound "Event"), s)) ∧
    (EventExists dto.eventId s → ¬ RoomExists dto.roomId s →
      CreateEventRoomAsync dto s = (.error (.notFound "Room"), s)) ∧
    (EventExists dto.eventId s → RoomExists dto.roomId s →
      AssocExists dto.eventId dto.roomId s →
      CreateEventRoomAsync dto s =
        (.error (.conflict "EventRoom with same Event and Room already exists."), s)) ∧
    (EventExists dto.eventId s → RoomExists dto.roomId s →
      ¬ AssocExists dto.eventId dto.roomId s →
      CreateEventRoomAsync dto s =
        (.ok (some { id := s.nextId, eventId := dto.eventId, roomId := dto.roomId }),
         AddAsync { id := 0, eventId := dto.eventId, roomId := dto.roomId } s)) := by
  refine ⟨?_, ?_, ?_, ?_⟩
  · intro hnE
    have h1 : FindOneAsync (fun e => e.id == dto.eventId) s.events = none :=
      (findOne_event_eq_none_iff _ _).mpr hnE
    simp [CreateEventRoomAsync, h1]
  · intro hE hnR
    obtain ⟨ev, h1⟩ :=
      Option.isSome_iff_exists.mp ((findOne_event_isSome_iff _ _).mpr hE)
    have h2 : FindOneAsync (fun r => r.id == dto.roomId) s.rooms = none :=
      (findOne_room_eq_none_iff _ _).mpr hnR
    simp [CreateEventRoomAsync, h1, h2]
  · intro hE hR hA
    obtain ⟨ev, h1⟩ :=
      Option.isSome_iff_exists.mp ((findOne_event_isSome_iff _ _).mpr hE)
    obtain ⟨rm, h2⟩ :=
      Option.isSome_iff_exists.mp ((findOne_room_isSome_iff _ _).mpr hR)
    obtain ⟨er, h3⟩ :=
      Option.isSome_iff_exists.mp ((findOne_assoc_isSome_iff _ _ _).mpr hA)
    simp [CreateEventRoomAsync, h1, h2, h3]
  · intro hE hR hnA
    obtain ⟨ev, h1⟩ :=
      Option.isSome_iff_exists.mp ((findOne_event_isSome_iff _ _).mpr hE)
    obtain ⟨rm, h2⟩ :=
      Option.isSome_iff_exists.mp ((findOne_room_isSome_iff _ _).mpr hR)
    have h3 : FindOneAsync
        (fun er => er.eventId == dto.eventId && er.roomId == dto.roomId)
        s.eventRooms = none :=
      (findOne_assoc_eq_none_iff _ _ _).mpr hnA
    have h3' : s.eventRooms.find?
        (fun er => er.eventId == dto.eventId && er.roomId == dto.roomId) = none := h3
    simp only [CreateEventRoomAsync, h1, h2, h3]
    simp [FindOneAsync, AddAsync, List.find?_append, h3',
      mapNullableEventRoomDTO, mapEventRoomDTO]

/-- Witness for C1: in the example database (event 1, room 2) there is no
event 7, and `create(7, 2)` fails with `NotFound("Event")`. -/
theorem C1_create_check_order_witness :
    ¬ EventExists 7 exDb0 ∧
    CreateEventRoomAsync { eventId := 7, roomId := 2 } exDb0 =
      (.error (.notFound "Event"), exDb0) :=
  ⟨by simp [EventExists, exDb0],
   (C1_create_check_order { eventId := 7, roomId := 2 } exDb0).1
     (by simp [EventExists, exDb0])⟩

/-- **C2.**  Whenever `create` fails, the whole state — in particular the
association collection — is unchanged: the failing checks happen before any
mutating call. -/
theorem C2_create_failure_keeps_state (dto : CreateEventRoomDTO) (s : DbState)
    (e : AppError) (h : (CreateEventRoomAsync dto s).1 = .error e) :
    (CreateEventRoomAsync dto s).2 = s ∧
    (CreateEventRoomAsync dto s).2.eventRooms = s.eventRooms := by
  have hs := create_error_snd dto s e h
  exact ⟨hs, by rw [hs]⟩

/-- Witness for C2: `create(7, 2)` on the example database fails with
`NotFound("Event")` and leaves the state unchanged. -/
theorem C2_create_failure_keeps_state_witness :
    (CreateEventRoomAsync { eventId := 7, roomId := 2 } exDb0).1 =
      .error (.notFound "Event") ∧
    (CreateEventRoomAsync { eventId := 7, roomId := 2 } exDb0).2 = exDb0 ∧
    (CreateEventRoomAsync { eventId := 7, roomId := 2 } exDb0).2.eventRooms =
      exDb0.eventRooms :=
  ⟨by rfl,
   (C2_create_failure_keeps_state { eventId := 7, roomId := 2 } exDb0
      (.notFound "Event") (by rfl)).1,
   (C2_create_failure_keeps_state { eventId := 7, roomId := 2 } exDb0
      (.notFound "Event") (by rfl)).2⟩

/-- **C3.**  In every state reachable from an empty association collection
by any sequence of `create`, `get`, `listFiltered` and `delete` calls, the
pair (eventId, roomId) is unique across all association records. -/
theorem C3_pair_uniqueness_invariant (init s : DbState)
    (h0 : init.eventRooms = []) (hr : Reachable init s) :
    PairUnique s.eventRooms :=
  reachable_pairUnique h0 hr

/-- Witness for C3: the example database reached by one `create(1, 2)` call
from the empty association collection has pairwise-distinct keys. -/
theorem C3_pair_uniqueness_invariant_witness :
    exDb0.eventRooms = [] ∧ Reachable exDb0 exDb1 ∧ PairUnique exDb1.eventRooms :=
  ⟨rfl,
   Relation.ReflTransGen.single (Step.create { eventId := 1, roomId := 2 } exDb0),
   C3_pair_uniqueness_invariant exDb0 exDb1 rfl
     (Relation.ReflTransGen.single (Step.create { eventId := 1, roomId := 2 } exDb0))⟩

/-- **C10.**  In `create`, the record returned to the caller is the mapping
of the second composite-key lookup performed after the write (not the
in-memory record, whose surrogate id was still the default), and that
mapping sends an absent re-read to an absent result rather than an error:
the null branch of the re-read is not checked. -/
theorem C10_create_returns_reread (dto : CreateEventRoomDTO) (s : DbState)
    (res : Option EventRoomDTO) :
    ((CreateEventRoomAsync dto s).1 = .ok res →
      res = mapNullableEventRoomDTO
        (FindOneAsync
          (fun er => er.eventId == dto.eventId && er.roomId == dto.roomId)
          (CreateEventRoomAsync dto s).2.eventRooms)) ∧
    mapNullableEventRoomDTO none = none := by
  refine ⟨?_, rfl⟩
  intro h
  cases h1 : FindOneAsync (fun e => e.id == dto.eventId) s.events with
  | none => simp [CreateEventRoomAsync, h1] at h
  | some ev =>
    cases h2 : FindOneAsync (fun r => r.id == dto.roomId) s.rooms with
    | none => simp [CreateEventRoomAsync, h1, h2] at h
    | some rm =>
      cases h3 : FindOneAsync
          (fun er => er.eventId == dto.eventId && er.roomId == dto.roomId)
          s.eventRooms with
      | some er => simp [CreateEventRoomAsync, h1, h2, h3] at h
      | none =>
        simp only [CreateEventRoomAsync, h1, h2, h3] at h ⊢
        exact (Except.ok.inj h).symm

/-- Witness for C10: `create(1, 2)` on the example database succeeds and its
result is exactly the mapped post-write re-read (with generated id 10). -/
theorem C10_create_returns_reread_witness :
    (CreateEventRoomAsync { eventId := 1, roomId := 2 } exDb0).1 =
      .ok (some { id := 10, eventId := 1, roomId := 2 }) ∧
    (some { id := 10, eventId := 1, roomId := 2 } : Option EventRoomDTO) =
      mapNullableEventRoomDTO
        (FindOneAsync (fun er => er.eventId == 1 && er.roomId == 2)
          (CreateEventRoomAsync { eventId := 1, roomId := 2 } exDb0).2.eventRooms) :=
  ⟨by rfl,
   (C10_create_returns_reread { eventId := 1, roomId := 2 } exDb0
      (some { id := 10, eventId := 1, roomId := 2 })).1 (by rfl)⟩

/-- **C4 (amended).**  For every pair, `get` looks up the association
record by the composite key through the generic `FindOneAsync` (first
match) — WITHOUT eager resolution: the returned record carries the Event
and Room projections exactly as stored, and the eager-loading
`GetByIdsAsync` is not involved — and it fails with `NotFound("EventRoom")`
exactly when no association record with that key exists. -/
theorem C4_get_by_key_without_includes (eventId roomId : Guid) (s : DbState) :
    (GetEventRoomAsync eventId roomId s = .error (.notFound "EventRoom") ↔
      ¬ AssocExists eventId roomId s) ∧
    (∀ er, FindOneAsync
        (fun er => er.eventId == eventId && er.roomId == roomId)
        s.eventRooms = some er →
      GetEventRoomAsync eventId roomId s = .ok (mapEventRoomDTO er) ∧
      (mapEventRoomDTO er).event = er.event ∧
      (mapEventRoomDTO er).room = er.room) := by
  constructor
  · cases h : FindOneAsync
        (fun er => er.eventId == eventId && er.roomId == roomId)
        s.eventRooms with
    | none =>
      have hnA := (findOne_assoc_eq_none_iff _ _ _).mp h
      simp [GetEventRoomAsync, h, hnA]
    | some er =>
      have hA : AssocExists eventId roomId s :=
        (findOne_assoc_isSome_iff _ _ _).mp (by rw [h]; rfl)
      simp [GetEventRoomAsync, h, hA]
  · intro er h
    exact ⟨by simp [GetEventRoomAsync, h], rfl, rfl⟩

/-- Witness for C4 (amended): `get(1, 2)` fails with `NotFound("EventRoom")`
on the empty association collection, and returns the stored record after
`create(1, 2)`. -/
theorem C4_get_by_key_without_includes_witness :
    ¬ AssocExists 1 2 exDb0 ∧
    GetEventRoomAsync 1 2 exDb0 = .error (.notFound "EventRoom") ∧
    FindOneAsync (fun er => er.eventId == 1 && er.roomId == 2) exDb1.eventRooms =
      some { id := 10, eventId := 1, roomId := 2 } ∧
    GetEventRoomAsync 1 2 exDb1 =
      .ok (mapEventRoomDTO { id := 10, eventId := 1, roomId := 2 }) :=
  ⟨by decide,
   (C4_get_by_key_without_includes 1 2 exDb0).1.mpr (by decide),
   by rfl,
   ((C4_get_by_key_without_includes 1 2 exDb1).2
      { id := 10, eventId := 1, roomId := 2 } (by rfl)).1⟩

/-- Counterexample to C4 as stated: after `create(1, 2)` in a database
where event 1 and room 2 exist (and are resolvable — the eager-loading
repository lookup `GetByIdsAsync` does resolve them), `get(1, 2)` succeeds
but the record it returns carries `none` for both the Event and the Room
projection: `get` does not perform the eager resolution the claim
asserts. -/
theorem C4_get_eager_resolution_counterexample :
    GetEventRoomAsync 1 2 exDb1 =
      .ok { id := 10, eventId := 1, roomId := 2, event := none, room := none } ∧
    GetByIdsAsync 1 2 exDb1 =
      some { id := 10, eventId := 1, roomId := 2,
             event := some { id := 1 }, room := some { id := 2 } } ∧
    exDb1.events = [{ id := 1 }] ∧ exDb1.rooms = [{ id := 2 }] :=
  ⟨rfl, rfl, rfl, rfl⟩

/-- **C5 (amended).**  For every pair, `delete` fails exactly when no
association record with that composite key exists, with a `NotFound` error
whose message is the interpolated `"EventRoom with EventId={eventId} and
RoomId={roomId} not found"` (not the bare resource string `"EventRoom"`),
leaving the state unchanged; otherwise it removes exactly the records with
that key; and a repeated delete on the same key after a success fails with
that same `NotFound` rather than silently succeeding. -/
theorem C5_delete_by_key (eventId roomId : Guid) (s : DbState) :
    (¬ AssocExists eventId roomId s →
      DeleteEventRoomAsync eventId roomId s =
        (.error (.notFound ("EventRoom with EventId=" ++ toString eventId ++
          " and RoomId=" ++ toString roomId ++ " not found")), s)) ∧
    (AssocExists eventId roomId s →
      (DeleteEventRoomAsync eventId roomId s).1 = .ok () ∧
      (∀ er, er ∈ (DeleteEventRoomAsync eventId roomId s).2.eventRooms ↔
        er ∈ s.eventRooms ∧ ¬(er.eventId = eventId ∧ er.roomId = roomId)) ∧
      (DeleteEventRoomAsync eventId roomId
          (DeleteEventRoomAsync eventId roomId s).2).1 =
        .error (.notFound ("EventRoom with EventId=" ++ toString eventId ++
          " and RoomId=" ++ toString roomId ++ " not found"))) := by
  constructor
  · intro hnA
    have h : FindOneAsync
        (fun er => er.eventId == eventId && er.roomId == roomId)
        s.eventRooms = none := (findOne_assoc_eq_none_iff _ _ _).mpr hnA
    simp [DeleteEventRoomAsync, h]
  · intro hA
    obtain ⟨er0, h⟩ :=
      Option.isSome_iff_exists.mp ((findOne_assoc_isSome_iff _ _ _).mpr hA)
    have hsnd : (DeleteEventRoomAsync eventId roomId s).2 =
        DeleteAsync (fun er => er.eventId == eventId && er.roomId == roomId) s := by
      simp [DeleteEventRoomAsync, h]
    have hmem : ∀ er, er ∈ (DeleteEventRoomAsync eventId roomId s).2.eventRooms ↔
        er ∈ s.eventRooms ∧ ¬(er.eventId = eventId ∧ er.roomId = roomId) := by
      intro er
      rw [hsnd, deleteAsync_eventRooms, List.mem_filter]
      constructor
      · rintro ⟨h1, h2⟩
        refine ⟨h1, fun hk => ?_⟩
        simp [hk.1, hk.2] at h2
      · rintro ⟨h1, h2⟩
        refine ⟨h1, ?_⟩
        simp only [Bool.not_eq_true', Bool.and_eq_false_iff, beq_eq_false_iff_ne]
        by_cases he : er.eventId = eventId
        · exact .inr fun hr => h2 ⟨he, hr⟩
        · exact .inl he
    refine ⟨by simp [DeleteEventRoomAsync, h], hmem, ?_⟩
    have hnA2 : ¬ AssocExists eventId roomId
        (DeleteEventRoomAsync eventId roomId s).2 := by
      rintro ⟨er, hm, hkeys⟩
      exact ((hmem er).mp hm).2 hkeys
    have h2 : FindOneAsync
        (fun er => er.eventId == eventId && er.roomId == roomId)
        (DeleteEventRoomAsync eventId roomId s).2.eventRooms = none :=
      (findOne_assoc_eq_none_iff _ _ _).mpr hnA2
    generalize hgen : (DeleteEventRoomAsync eventId roomId s).2 = t at h2 ⊢
    simp [DeleteEventRoomAsync, h2]

/-- Witness for C5 (amended): deleting the association created in the
example database succeeds, removes it, and a repeated delete fails with the
interpolated `NotFound` message. -/
theorem C5_delete_by_key_witness :
    AssocExists 1 2 exDb1 ∧
    (DeleteEventRoomAsync 1 2 exDb1).1 = .ok () ∧
    (DeleteEventRoomAsync 1 2 (DeleteEventRoomAsync 1 2 exDb1).2).1 =
      .error (.notFound "EventRoom with EventId=1 and RoomId=2 not found") :=
  ⟨by decide,
   ((C5_delete_by_key 1 2 exDb1).2 (by decide)).1,
   ((C5_delete_by_key 1 2 exDb1).2 (by decide)).2.2⟩

/-- Counterexample to C5 as stated: deleting a missing association fails
with `NotFound` carrying the interpolated message, which is not the bare
resource string `"EventRoom"` the claim asserts. -/
theorem C5_delete_notfound_payload_counterexample :
    (DeleteEventRoomAsync 1 2 exDb0).1 =
      .error (.notFound "EventRoom with EventId=1 and RoomId=2 not found") ∧
    (DeleteEventRoomAsync 1 2 exDb0).1 ≠ .error (.notFound "EventRoom") := by
  refine ⟨by rfl, ?_⟩
  intro h
  rw [show (DeleteEventRoomAsync 1 2 exDb0).1 =
      Except.error
        (AppError.notFound "EventRoom with EventId=1 and RoomId=2 not found")
    from rfl] at h
  exact absurd (AppError.notFound.inj (Except.error.inj h)) (by decide)

section PaginationLemmas

lemma matchesFilter_iff (f : EventRoomFilterDTO) (er : EventRoom) :
    matchesFilter f er = true ↔
      (∀ v, f.eventId = some v → er.eventId = v) ∧
      (∀ v, f.roomId = some v → er.roomId = v) := by
  unfold matchesFilter
  cases hE : f.eventId <;> cases hR : f.roomId <;> simp

lemma getAllAsync_length (p : EventRoom → Bool) (page count : Int)
    (s : DbState) :
    (GetAllAsync p page count s).length =
      min count.toNat
        ((s.eventRooms.filter p).length - ((page - 1) * count).toNat) := by
  unfold GetAllAsync
  rw [List.length_take, List.length_drop, List.length_map,
    List.length_insertionSort]

lemma getAllAsync_mem {p : EventRoom → Bool} {page count : Int} {s : DbState}
    {x : EventRoom} (hx : x ∈ GetAllAsync p page count s) :
    ∃ er ∈ s.eventRooms, p er = true ∧ x = withIncludes s er := by
  unfold GetAllAsync at hx
  have hx1 := List.take_subset _ _ hx
  have hx2 := List.drop_subset _ _ hx1
  rw [List.mem_map] at hx2
  obtain ⟨er, her, hmap⟩ := hx2
  rw [List.mem_insertionSort, List.mem_filter] at her
  exact ⟨er, her.1, her.2, hmap.symm⟩

lemma getAllAsync_eq_nil_of_le {p : EventRoom → Bool} {page count : Int}
    {s : DbState}
    (hle : (s.eventRooms.filter p).length ≤ ((page - 1) * count).toNat) :
    GetAllAsync p page count s = [] := by
  unfold GetAllAsync
  rw [List.drop_eq_nil_of_le
    (by rw [List.length_map, List.length_insertionSort]; exact hle),
    List.take_nil]

lemma ceilingTotalPages_of_pos (m : Nat) (n : Int) (hn : 1 ≤ n) :
    ceilingTotalPages m n = ((m ⌈/⌉ n.toNat : Nat) : Int) := by
  unfold ceilingTotalPages
  rw [if_pos (by omega), Nat.ceilDiv_eq_add_pred_div]

/-- The natural-number ceiling division coincides with the mathematical
ceiling of the rational quotient. -/
lemma ceilDiv_cast_eq_ceil (m n : ℕ) (hn : 0 < n) :
    ((m ⌈/⌉ n : ℕ) : ℤ) = ⌈(m : ℚ) / (n : ℚ)⌉ := by
  have hnq : (0 : ℚ) < (n : ℚ) := by exact_mod_cast hn
  have hmul : m ≤ n * (m ⌈/⌉ n) := (ceilDiv_le_iff_le_mul hn).mp le_rfl
  have hub : (m : ℚ) / (n : ℚ) ≤ ((m ⌈/⌉ n : ℕ) : ℚ) := by
    rw [div_le_iff₀ hnq]
    calc (m : ℚ) ≤ ((n * (m ⌈/⌉ n) : ℕ) : ℚ) := by exact_mod_cast hmul
      _ = ((m ⌈/⌉ n : ℕ) : ℚ) * (n : ℚ) := by push_cast; ring
  have h2 : ⌈(m : ℚ) / (n : ℚ)⌉ ≤ ((m ⌈/⌉ n : ℕ) : ℤ) := by
    rw [Int.ceil_le]
    exact_mod_cast hub
  have hB0 : (0 : ℤ) ≤ ⌈(m : ℚ) / (n : ℚ)⌉ :=
    Int.ceil_nonneg (by positivity)
  have h3 : ((m ⌈/⌉ n : ℕ) : ℤ) ≤ ⌈(m : ℚ) / (n : ℚ)⌉ := by
    have hc : (m : ℚ) ≤ (⌈(m : ℚ) / (n : ℚ)⌉ : ℚ) * (n : ℚ) := by
      have hlc := Int.le_ceil ((m : ℚ) / (n : ℚ))
      rwa [div_le_iff₀ hnq] at hlc
    have hcast : ((⌈(m : ℚ) / (n : ℚ)⌉.toNat : ℕ) : ℚ) =
        (⌈(m : ℚ) / (n : ℚ)⌉ : ℚ) := by
      exact_mod_cast congrArg (fun z : ℤ => (z : ℚ)) (Int.toNat_of_nonneg hB0)
    have hm : m ≤ n * ⌈(m : ℚ) / (n : ℚ)⌉.toNat := by
      have hq : (m : ℚ) ≤ ((n * ⌈(m : ℚ) / (n : ℚ)⌉.toNat : ℕ) : ℚ) := by
        push_cast
        rw [mul_comm]
        calc (m : ℚ) ≤ (⌈(m : ℚ) / (n : ℚ)⌉ : ℚ) * n := hc
          _ = (⌈(m : ℚ) / (n : ℚ)⌉.toNat : ℚ) * n := by rw [hcast]
      exact_mod_cast hq
    have hd : m ⌈/⌉ n ≤ ⌈(m : ℚ) / (n : ℚ)⌉.toNat :=
      (ceilDiv_le_iff_le_mul hn).mpr hm
    calc ((m ⌈/⌉ n : ℕ) : ℤ)
        ≤ ((⌈(m : ℚ) / (n : ℚ)⌉.toNat : ℕ) : ℤ) := by exact_mod_cast hd
      _ = ⌈(m : ℚ) / (n : ℚ)⌉ := Int.toNat_of_nonneg hB0
  exact le_antisymm h3 h2

/-- Field-level description of `GetFilteredEventRoomsAsync`. -/
lemma getFiltered_eq (f : EventRoomFilterDTO) (s : DbState) :
    GetFilteredEventRoomsAsync f s =
      { items := (GetAllAsync (matchesFilter f) f.pageNumber f.pageSize s).map
          mapEventRoomDTO
        pageIndex := f.pageNumber
        pageSize := f.pageSize
        totalCount := (GetCount (matchesFilter f) s.eventRooms : Int)
        totalPages := ceilingTotalPages
          (GetCount (matchesFilter f) s.eventRooms) f.pageSize
        hasPreviousPage := decide (f.pageNumber > 1)
        hasNextPage := decide (f.pageNumber <
          ceilingTotalPages (GetCount (matchesFilter f) s.eventRooms)
            f.pageSize) } := rfl

@[simp] lemma getFiltered_totalCount (f : EventRoomFilterDTO) (s : DbState) :
    (GetFilteredEventRoomsAsync f s).totalCount =
      (GetCount (matchesFilter f) s.eventRooms : Int) := rfl

@[simp] lemma getFiltered_totalPages (f : EventRoomFilterDTO) (s : DbState) :
    (GetFilteredEventRoomsAsync f s).totalPages =
      ceilingTotalPages (GetCount (matchesFilter f) s.eventRooms)
        f.pageSize := rfl

@[simp] lemma getFiltered_items (f : EventRoomFilterDTO) (s : DbState) :
    (GetFilteredEventRoomsAsync f s).items =
      (GetAllAsync (matchesFilter f) f.pageNumber f.pageSize s).map
        mapEventRoomDTO := rfl

@[simp] lemma getFiltered_pageIndex (f : EventRoomFilterDTO) (s : DbState) :
    (GetFilteredEventRoomsAsync f s).pageIndex = f.pageNumber := rfl

@[simp] lemma getFiltered_pageSize (f : EventRoomFilterDTO) (s : DbState) :
    (GetFilteredEventRoomsAsync f s).pageSize = f.pageSize := rfl

@[simp] lemma getFiltered_hasPreviousPage (f : EventRoomFilterDTO)
    (s : DbState) :
    (GetFilteredEventRoomsAsync f s).hasPreviousPage =
      decide (f.pageNumber > 1) := rfl

@[simp] lemma getFiltered_hasNextPage (f : EventRoomFilterDTO) (s : DbState) :
    (GetFilteredEventRoomsAsync f s).hasNextPage =
      decide (f.pageNumber <
        ceilingTotalPages (GetCount (matchesFilter f) s.eventRooms)
          f.pageSize) := rfl

end PaginationLemmas

/-- **C6.**  `listFiltered` counts — and draws its returned items from —
exactly the records matching (eventId unset OR equal) AND (roomId unset OR
equal); a filter with both fields unset matches every record. -/
theorem C6_filter_predicate (f : EventRoomFilterDTO) (s : DbState) :
    (∀ er : EventRoom, matchesFilter f er = true ↔
      (∀ v, f.eventId = some v → er.eventId = v) ∧
      (∀ v, f.roomId = some v → er.roomId = v)) ∧
    (f.eventId = none → f.roomId = none →
      ∀ er : EventRoom, matchesFilter f er = true) ∧
    (GetFilteredEventRoomsAsync f s).totalCount =
      ((s.eventRooms.filter (matchesFilter f)).length : Int) ∧
    (∀ dto ∈ (GetFilteredEventRoomsAsync f s).items,
      ∃ er ∈ s.eventRooms, matchesFilter f er = true ∧
        dto = mapEventRoomDTO (withIncludes s er)) := by
  refine ⟨fun er => matchesFilter_iff f er, ?_, rfl, ?_⟩
  · intro hE hR er
    rw [matchesFilter_iff]
    constructor <;> intro v hv
    · rw [hE] at hv; cases hv
    · rw [hR] at hv; cases hv
  · intro dto hdto
    rw [getFiltered_items, List.mem_map] at hdto
    obtain ⟨x, hx, hmap⟩ := hdto
    obtain ⟨er, hermem, hp, hxw⟩ := getAllAsync_mem hx
    exact ⟨er, hermem, hp, by rw [← hmap, hxw]⟩

/-- Witness for C6: the default filter (both fields unset) matches the
first example record, and the total count over the three-record example
database is the matching-record count. -/
theorem C6_filter_predicate_witness :
    matchesFilter { } { id := 10, eventId := 1, roomId := 2 } = true ∧
    (GetFilteredEventRoomsAsync { } exDb3).totalCount =
      ((exDb3.eventRooms.filter (matchesFilter { })).length : Int) :=
  ⟨(C6_filter_predicate { } exDb3).2.1 rfl rfl
     { id := 10, eventId := 1, roomId := 2 },
   (C6_filter_predicate { } exDb3).2.2.1⟩

/-- **C7.**  For every filter with `pageNumber ≥ 1` and `pageSize ≥ 1`,
writing `m` for the number of matching records: `totalCount = m`;
`totalPages` is the mathematical ceiling of `m / pageSize`; the item count
is `min pageSize (m - (pageNumber-1)*pageSize)` — the matching records at
offset `(pageNumber-1)*pageSize` limited to `pageSize` — and in particular
at most `pageSize`; `hasPreviousPage = (pageNumber > 1)`; `hasNextPage =
(pageNumber < totalPages)`; and a page beyond `totalPages` yields an empty
item set (the count metadata not depending on the page number), not an
error. -/
theorem C7_pagination (f : EventRoomFilterDTO) (s : DbState)
    (hp : 1 ≤ f.pageNumber) (hn : 1 ≤ f.pageSize) :
    (GetFilteredEventRoomsAsync f s).totalCount =
      ((s.eventRooms.filter (matchesFilter f)).length : Int) ∧
    (GetFilteredEventRoomsAsync f s).totalPages =
      ⌈((s.eventRooms.filter (matchesFilter f)).length : ℚ) /
        (f.pageSize : ℚ)⌉ ∧
    (GetFilteredEventRoomsAsync f s).items.length =
      min f.pageSize.toNat
        ((s.eventRooms.filter (matchesFilter f)).length -
          ((f.pageNumber - 1) * f.pageSize).toNat) ∧
    (GetFilteredEventRoomsAsync f s).items.length ≤ f.pageSize.toNat ∧
    (GetFilteredEventRoomsAsync f s).hasPreviousPage =
      decide (1 < f.pageNumber) ∧
    (GetFilteredEventRoomsAsync f s).hasNextPage =
      decide (f.pageNumber < (GetFilteredEventRoomsAsync f s).totalPages) ∧
    ((GetFilteredEventRoomsAsync f s).totalPages < f.pageNumber →
      (GetFilteredEventRoomsAsync f s).items = []) := by
  have hn0 : 0 < f.pageSize.toNat := by omega
  have hcastZ : (f.pageSize.toNat : ℤ) = f.pageSize :=
    Int.toNat_of_nonneg (by omega)
  have hcastQ : ((f.pageSize.toNat : ℕ) : ℚ) = (f.pageSize : ℚ) := by
    exact_mod_cast congrArg (fun z : ℤ => (z : ℚ)) hcastZ
  have hlen : (GetFilteredEventRoomsAsync f s).items.length =
      min f.pageSize.toNat
        ((s.eventRooms.filter (matchesFilter f)).length -
          ((f.pageNumber - 1) * f.pageSize).toNat) := by
    rw [getFiltered_items, List.length_map, getAllAsync_length]
  refine ⟨rfl, ?_, hlen, ?_, rfl, rfl, ?_⟩
  · rw [getFiltered_totalPages, ceilingTotalPages_of_pos _ _ hn,
      ceilDiv_cast_eq_ceil _ _ hn0, hcastQ]
    rfl
  · rw [hlen]
    exact Nat.min_le_left _ _
  · intro hbeyond
    rw [getFiltered_totalPages, ceilingTotalPages_of_pos _ _ hn] at hbeyond
    rw [getFiltered_items]
    rw [getAllAsync_eq_nil_of_le ?hle, List.map_nil]
    case hle =>
      have hq : GetCount (matchesFilter f) s.eventRooms ≤
          f.pageSize.toNat *
            (GetCount (matchesFilter f) s.eventRooms ⌈/⌉ f.pageSize.toNat) :=
        (ceilDiv_le_iff_le_mul hn0).mp le_rfl
      have h1 : ((GetCount (matchesFilter f) s.eventRooms ⌈/⌉
          f.pageSize.toNat : ℕ) : ℤ) ≤ f.pageNumber - 1 := by omega
      have h2 : ((s.eventRooms.filter (matchesFilter f)).length : ℤ) ≤
          (f.pageNumber - 1) * f.pageSize := by
        calc ((s.eventRooms.filter (matchesFilter f)).length : ℤ)
            ≤ (f.pageSize.toNat : ℤ) *
              ((GetCount (matchesFilter f) s.eventRooms ⌈/⌉
                f.pageSize.toNat : ℕ) : ℤ) := by exact_mod_cast hq
          _ = ((GetCount (matchesFilter f) s.eventRooms ⌈/⌉
                f.pageSize.toNat : ℕ) : ℤ) * f.pageSize := by
              rw [hcastZ]; ring
          _ ≤ (f.pageNumber - 1) * f.pageSize :=
              mul_le_mul_of_nonneg_right h1 (by omega)
      have h3 := Int.toNat_le_toNat h2
      rwa [Int.toNat_natCast] at h3

/-- Witness for C7: filtering the three-record example database by event 1
with page 2 of size 2 gives the ceiling page count and at most two items. -/
theorem C7_pagination_witness :
    (1 : Int) ≤ 2 ∧
    (GetFilteredEventRoomsAsync
        { eventId := some 1, roomId := none, pageNumber := 2, pageSize := 2 }
        exDb3).totalPages =
      ⌈((exDb3.eventRooms.filter (matchesFilter
          { eventId := some 1, roomId := none, pageNumber := 2,
            pageSize := 2 })).length : ℚ) / ((2 : Int) : ℚ)⌉ ∧
    (GetFilteredEventRoomsAsync
        { eventId := some 1, roomId := none, pageNumber := 2, pageSize := 2 }
        exDb3).items.length ≤ (2 : Int).toNat :=
  ⟨by decide,
   (C7_pagination
      { eventId := some 1, roomId := none, pageNumber := 2, pageSize := 2 }
      exDb3 (by decide) (by decide)).2.1,
   (C7_pagination
      { eventId := some 1, roomId := none, pageNumber := 2, pageSize := 2 }
      exDb3 (by decide) (by decide)).2.2.2.1⟩

/-- **C8.**  `listFiltered` never fails due to the filter identifiers: in
any state reachable from an empty association collection, a filter whose
`eventId` (or `roomId`) references no existing entity yields
`totalCount = 0` and an empty item list — the call completes normally
instead of raising `NotFound`. -/
theorem C8_list_nonexistent_filter_ids (init s : DbState)
    (f : EventRoomFilterDTO) (h0 : init.eventRooms = [])
    (hr : Reachable init s)
    (hbad : (∃ v, f.eventId = some v ∧ ¬ EventExists v s) ∨
            (∃ v, f.roomId = some v ∧ ¬ RoomExists v s)) :
    (GetFilteredEventRoomsAsync f s).totalCount = 0 ∧
    (GetFilteredEventRoomsAsync f s).items = [] := by
  have hri := reachable_refIntegrity h0 hr
  have hnone : ∀ er ∈ s.eventRooms, ¬ matchesFilter f er = true := by
    intro er hm hmt
    rcases hbad with ⟨v, hv, hne⟩ | ⟨v, hv, hne⟩
    · have hev := ((matchesFilter_iff f er).mp hmt).1 v hv
      exact hne (hev ▸ (hri er hm).1)
    · have hrm := ((matchesFilter_iff f er).mp hmt).2 v hv
      exact hne (hrm ▸ (hri er hm).2)
  have hfilter : s.eventRooms.filter (matchesFilter f) = [] := by
    rw [List.filter_eq_nil_iff]
    exact hnone
  constructor
  · rw [getFiltered_totalCount]
    simp [GetCount, hfilter]
  · rw [getFiltered_items,
      getAllAsync_eq_nil_of_le (by rw [hfilter]; exact Nat.zero_le _),
      List.map_nil]

/-- Witness for C8: event 99 does not exist in the example database reached
by one `create(1, 2)` call, and listing with `eventId = 99` returns zero
matches and no items. -/
theorem C8_list_nonexistent_filter_ids_witness :
    exDb0.eventRooms = [] ∧ ¬ EventExists 99 exDb1 ∧
    (GetFilteredEventRoomsAsync { eventId := some 99 } exDb1).totalCount = 0 ∧
    (GetFilteredEventRoomsAsync { eventId := some 99 } exDb1).items = [] :=
  ⟨rfl, by decide,
   (C8_list_nonexistent_filter_ids exDb0 exDb1 { eventId := some 99 } rfl
      (Relation.ReflTransGen.single
        (Step.create { eventId := 1, roomId := 2 } exDb0))
      (.inl ⟨99, rfl, by decide⟩)).1,
   (C8_list_nonexistent_filter_ids exDb0 exDb1 { eventId := some 99 } rfl
      (Relation.ReflTransGen.single
        (Step.create { eventId := 1, roomId := 2 } exDb0))
      (.inl ⟨99, rfl, by decide⟩)).2⟩

/-- **C9.**  `listFiltered` does not validate its pagination parameters:
with `pageSize = 0` (and any page number, non-positive included) the call
still completes with an ordinary result — no rejection branch exists — the
`totalPages` computation applies the unguarded division with divisor 0
(whose floating-point junk outcome the model `ceilingTotalPages` collapses
to 0), and the page number is forwarded unchanged both to the gateway query
and into the result's `pageIndex`. -/
theorem C9_no_pagination_validation (f : EventRoomFilterDTO) (s : DbState)
    (hz : f.pageSize = 0) :
    (GetFilteredEventRoomsAsync f s).pageIndex = f.pageNumber ∧
    (GetFilteredEventRoomsAsync f s).pageSize = 0 ∧
    (GetFilteredEventRoomsAsync f s).totalPages =
      ceilingTotalPages (GetCount (matchesFilter f) s.eventRooms) 0 ∧
    (GetFilteredEventRoomsAsync f s).totalPages = 0 ∧
    (GetFilteredEventRoomsAsync f s).items =
      (GetAllAsync (matchesFilter f) f.pageNumber f.pageSize s).map
        mapEventRoomDTO ∧
    (GetFilteredEventRoomsAsync f s).items = [] := by
  refine ⟨rfl, by rw [getFiltered_pageSize, hz],
    by rw [getFiltered_totalPages, hz], ?_, rfl, ?_⟩
  · rw [getFiltered_totalPages, hz]
    rfl
  · rw [getFiltered_items]
    unfold GetAllAsync
    rw [hz]
    simp

/-- Witness for C9: listing with `pageSize = 0` and `pageNumber = -3` over
the three-record example database completes with `pageIndex = -3`,
`totalPages = 0` and no items. -/
theorem C9_no_pagination_validation_witness :
    ({ eventId := none, roomId := none, pageNumber := -3, pageSize := 0 } :
      EventRoomFilterDTO).pageSize = 0 ∧
    (GetFilteredEventRoomsAsync
        { eventId := none, roomId := none, pageNumber := -3, pageSize := 0 }
        exDb3).pageIndex = -3 ∧
    (GetFilteredEventRoomsAsync
        { eventId := none, roomId := none, pageNumber := -3, pageSize := 0 }
        exDb3).totalPages = 0 ∧
    (GetFilteredEventRoomsAsync
        { eventId := none, roomId := none, pageNumber := -3, pageSize := 0 }
        exDb3).items = [] :=
  ⟨rfl,
   (C9_no_pagination_validation
      { eventId := none, roomId := none, pageNumber := -3, pageSize := 0 }
      exDb3 rfl).1,
   (C9_no_pagination_validation
      { eventId := none, roomId := none, pageNumber := -3, pageSize := 0 }
      exDb3 rfl).2.2.2.1,
   (C9_no_pagination_validation
      { eventId := none, roomId := none, pageNumber := -3, pageSize := 0 }
      exDb3 rfl).2.2.2.2.2⟩

end HiLink
